import Mathlib

/-!
Shallow embedding of `src/meeting-translator/src/App.jsx`: the style catalog,
the translation request handler and its error classification, and the markdown
post-processing applied to the displayed output, together with theorems that
settle the specification's claims about them.
-/

namespace MeetingTranslator

/-- The fixed style catalog (`STYLES`, App.jsx line 8). -/
def STYLES : List String :=
  ["Gen Z", "Shakespeare", "Corporate", "Yoda", "Pirate", "Rap", "Victorian Era"]

/-- Error categories of the specification's `TranslationResult`; each one names
exactly one error branch of `handleTranslate` in App.jsx. -/
inductive ErrorCategory
  | ValidationError
  | ConfigurationError
  | AuthError
  | QuotaError
  | ContentPolicyError
  | UnknownError
deriving DecidableEq, Repr

/-- A translation result: either the generated text, or a failure tagged with
the branch that produced it.  The message strings are the exact strings the
component passes to `setOutput`. -/
inductive TranslationResult
  | success (text : String)
  | failure (category : ErrorCategory) (message : String)
deriving DecidableEq, Repr

/-- The outcome of the generation collaborator (`model.generateContent`
followed by `response.text()`): it either resolves with text or rejects with an
error carrying a message. -/
inductive CollabResult
  | resolve (text : String)
  | reject (message : String)

/-- `charsHaveStart pat s` holds when `pat` occurs at the very start of `s`. -/
def charsHaveStart : List Char → List Char → Bool
  | [], _ => true
  | _ :: _, [] => false
  | p :: ps, c :: cs => p == c && charsHaveStart ps cs

/-- Substring containment on character lists. -/
def containsSub : List Char → List Char → Bool
  | [], pat => pat.isEmpty
  | c :: cs, pat => charsHaveStart pat (c :: cs) || containsSub cs pat

/-- JavaScript `s.includes(pat)`. -/
def includes (s pat : String) : Bool :=
  containsSub s.data pat.data

/-- Output string of the input-validation branch (App.jsx line 47). -/
def validationMsg : String := "⚠️ Please enter text and select a style first."

/-- Output string of the missing-API-key branch (App.jsx line 53). -/
def configMsg : String := "❌ API key not found. Please check your .env file."

/-- Output string of the invalid-API-key branch (App.jsx line 81). -/
def authMsg : String := "❌ Invalid API key. Please check your environment variables."

/-- Output string of the quota branch (App.jsx line 83). -/
def quotaMsg : String := "❌ API quota exceeded. Please try again later."

/-- Output string of the safety branch (App.jsx line 85). -/
def safetyMsg : String := "❌ The response was blocked due to safety settings. Please try a different input."

/-- Output string of the catch-all branch (App.jsx line 87). -/
def unknownMsg (m : String) : String := "❌ An error occurred: " ++ m

/-- Substring test of App.jsx line 80. -/
def mentionsCredential (m : String) : Bool :=
  includes m "API_KEY_INVALID" || includes m "API key"

/-- Substring test of App.jsx line 82. -/
def mentionsQuota (m : String) : Bool :=
  includes m "quota" || includes m "limit"

/-- Substring test of App.jsx line 84. -/
def mentionsSafety (m : String) : Bool :=
  includes m "SAFETY" || includes m "blocked"

/-- The error classification of the catch block (App.jsx lines 76-88). -/
def classify (m : String) : TranslationResult :=
  if mentionsCredential m then .failure .AuthError authMsg
  else if mentionsQuota m then .failure .QuotaError quotaMsg
  else if mentionsSafety m then .failure .ContentPolicyError safetyMsg
  else .failure .UnknownError (unknownMsg m)

/-- Prompt construction (App.jsx line 60). -/
def buildPrompt (styleLabel sourceText : String) : String :=
  "Rewrite the following meeting notes in " ++ styleLabel ++ " style:\n\n" ++ sourceText

/-- `handleTranslate` viewed as the specification's contract
`translate(sourceText, styleLabel, credential) -> TranslationResult`, with the
generation collaborator passed in as a function.  The second component is the
list of prompts sent over the network (empty list = no network call).  The
emptiness tests mirror the JavaScript truthiness checks `!input`,
`!selectedStyle` and `!import.meta.env.VITE_GEMINI_API_KEY` (an absent
environment variable is modelled as the empty string, which is likewise
falsy). -/
def translate (sourceText styleLabel credential : String)
    (collab : String → CollabResult) : TranslationResult × List String :=
  if sourceText = "" ∨ styleLabel = "" then
    (.failure .ValidationError validationMsg, [])
  else if credential = "" then
    (.failure .ConfigurationError configMsg, [])
  else
    match collab (buildPrompt styleLabel sourceText) with
    | .resolve text => (.success text, [buildPrompt styleLabel sourceText])
    | .reject m => (classify m, [buildPrompt styleLabel sourceText])

/-- The component state read and written by `handleTranslate`.  The `theme`
state is never touched by the handler and is omitted. -/
structure AppState where
  input : String
  selectedStyle : String
  output : String
  loading : Bool
deriving DecidableEq, Repr

/-- The display string carried by a result. -/
def resultText : TranslationResult → String
  | .success t => t
  | .failure _ m => m

/-- Replacement text pieces of `'<strong>$1</strong>'` (App.jsx line 19). -/
def strongOpen : List Char := "<strong>".data

/-- Closing piece of the bold replacement (App.jsx line 19). -/
def strongClose : List Char := "</strong>".data

/-- The ECMAScript line terminators: LF, CR, LINE SEPARATOR (U+2028) and
PARAGRAPH SEPARATOR (U+2029).  The regex dot (without the `s` flag) matches
any character except these, and the multiline anchors `^`/`$` match around
exactly these. -/
def isLineTerm (c : Char) : Bool :=
  c == '\n' || c == '\r' || c == '\u2028' || c == '\u2029'

/-- Lazy search for the closing `**` of `/\*\*(.*?)\*\*/`: starting right
after an opening `**`, find the earliest following `**`; the non-greedy dot
matches anything but a line terminator, so the search fails on a line
terminator (and at the end of the input). -/
def findClose : List Char → Option (List Char × List Char)
  | [] => none
  | [_] => none
  | c :: d :: cs =>
    if c = '*' ∧ d = '*' then some ([], cs)
    else if isLineTerm c = true then none
    else Option.map (fun p => (c :: p.1, p.2)) (findClose (d :: cs))

/-- Fuel-indexed left-to-right scan implementing the global replacement
`text.replace(/\*\*(.*?)\*\*/g, '<strong>$1</strong>')` (App.jsx line 19):
at each position, an opening `**` with a lazily found closing `**` is
rewritten and the scan resumes after the match; otherwise (including an
opening `**` with no closing `**` on the same line) the scan advances one
character.  One unit of fuel is spent per position, so the input's length is
always enough fuel. -/
def rbf : Nat → List Char → List Char
  | 0, s => s
  | _ + 1, [] => []
  | _ + 1, [c] => [c]
  | fuel + 1, c :: d :: cs =>
    if c = '*' ∧ d = '*' then
      match findClose cs with
      | some (cap, r) => strongOpen ++ cap ++ strongClose ++ rbf fuel r
      | none => c :: rbf fuel (d :: cs)
    else c :: rbf fuel (d :: cs)

/-- The first replacement of `formatMarkdown` (App.jsx line 19). -/
def replaceBold (l : List Char) : List Char := rbf l.length l

/-- Does the rest of a line after a leading `*` match the tail of
`/^\* (.+)$/`, i.e. a space followed by at least one character that is not a
line terminator? -/
def bulletHead : List Char → Bool
  | c :: d :: _ => c == ' ' && !(isLineTerm d)
  | _ => false

/-- One-pass implementation of the second replacement
`.replace(/^\* (.+)$/gm, '• $1')` (App.jsx line 20): the flag records whether
the scan is at the start of a line — the multiline `^` matches at the start
of the input and after every line terminator; a line `* X` with `X` non-empty
has its leading `*` replaced by `•` and the rest of the line is copied. -/
def bulletAux : Bool → List Char → List Char
  | _, [] => []
  | atStart, c :: cs =>
    if atStart = true ∧ c = '*' ∧ bulletHead cs = true then
      '•' :: bulletAux false cs
    else c :: bulletAux (isLineTerm c) cs

/-- `formatMarkdown` (App.jsx lines 17-21): the bold replacement followed by
the bullet replacement. -/
def formatMarkdown (text : String) : String :=
  String.mk (bulletAux true (replaceBold text.data))

/-- The rendering of the output section (App.jsx line 175): whatever string is
in `output` — generated text or error message alike — is displayed through
`formatMarkdown`. -/
def renderedOutput (output : String) : String := formatMarkdown output

/-- `handleTranslate` as a state transformer (App.jsx lines 45-92): the early
returns only set `output`; the network path sets `loading` to `true` and
clears `output` (state `s1`), then writes the generated text or the classified
error message (state `s2`), and the `finally` block clears `loading`.  The
second component is the list of prompts sent over the network. -/
def handleTranslate (s : AppState) (apiKey : String)
    (collab : String → CollabResult) : AppState × List String :=
  if s.input = "" ∨ s.selectedStyle = "" then
    ({ s with output := validationMsg }, [])
  else if apiKey = "" then
    ({ s with output := configMsg }, [])
  else
    let s1 : AppState := { s with loading := true, output := "" }
    let prompt : String := buildPrompt s.selectedStyle s.input
    let s2 : AppState :=
      match collab prompt with
      | .resolve text => { s1 with output := text }
      | .reject m => { s1 with output := resultText (classify m) }
    ({ s2 with loading := false }, [prompt])

end MeetingTranslator

namespace MeetingTranslator

/-- Claim C1 (counterexample): the handler does not return a validation failure
for a style label outside the catalog, and does make a network call there; and
the validation message is not the one the claim states. -/
theorem translate_c1_counterexample :
    ("Klingon" ∉ STYLES) ∧
    translate "hello" "Klingon" "secret" (fun _ => CollabResult.resolve "ok") =
      (.success "ok",
       ["Rewrite the following meeting notes in Klingon style:\n\nhello"]) ∧
    translate " " "Yoda" "secret" (fun _ => CollabResult.resolve "ok") =
      (.success "ok",
       ["Rewrite the following meeting notes in Yoda style:\n\n "]) ∧
    (translate "" "Yoda" "secret" (fun _ => CollabResult.resolve "ok")).1 =
      .failure .ValidationError validationMsg ∧
    validationMsg ≠ "text and style required" := by
  refine ⟨by decide, by decide, by decide, by decide, by decide⟩

/-- Claim C1 (amended): if the source text is empty or the style label is
empty, the handler returns the validation failure with the component's message
and makes no network call. -/
theorem translate_empty_input_validation
    (sourceText styleLabel credential : String) (collab : String → CollabResult)
    (h : sourceText = "" ∨ styleLabel = "") :
    translate sourceText styleLabel credential collab =
      (.failure .ValidationError validationMsg, []) := by
  simp [translate, h]

/-- Witness for the amended claim C1. -/
theorem translate_empty_input_validation_witness :
    translate "" "Yoda" "secret" (fun _ => CollabResult.resolve "ok") =
      (.failure .ValidationError validationMsg, []) :=
  translate_empty_input_validation "" "Yoda" "secret" _ (Or.inl rfl)

/-- Claim C2 (counterexample): on the unrelated message `network down` the
catch-all branch fires, but the failure message is the original message with
the fixed template in front of it, not the original message unchanged. -/
theorem classify_c2_counterexample :
    classify "network down" =
      .failure .UnknownError "❌ An error occurred: network down" ∧
    ("❌ An error occurred: network down" : String) ≠ "network down" := by
  refine ⟨by decide, by decide⟩

/-- Claim C2 (amended): the classification applies its rules in order and the
first matching rule wins; a message passing the credential test yields the
auth failure, otherwise one passing the quota test yields the quota failure,
otherwise one passing the safety test yields the content-policy failure, and
otherwise the result is the unknown failure whose message embeds the original
message `m` unchanged after the fixed template `❌ An error occurred: `. -/
theorem classify_first_match_wins (m : String) :
    (mentionsCredential m = true → classify m = .failure .AuthError authMsg) ∧
    (mentionsCredential m = false → mentionsQuota m = true →
      classify m = .failure .QuotaError quotaMsg) ∧
    (mentionsCredential m = false → mentionsQuota m = false →
      mentionsSafety m = true →
      classify m = .failure .ContentPolicyError safetyMsg) ∧
    (mentionsCredential m = false → mentionsQuota m = false →
      mentionsSafety m = false →
      classify m = .failure .UnknownError ("❌ An error occurred: " ++ m)) := by
  refine ⟨fun h1 => ?_, fun h1 h2 => ?_, fun h1 h2 h3 => ?_, fun h1 h2 h3 => ?_⟩ <;>
    simp [classify, unknownMsg, h1]
  · simp [h2]
  · simp [h2, h3]
  · simp [h2, h3]

/-- Witness for the amended claim C2: one concrete message per rule, including
a message that matches both the credential rule and the quota rule and is
classified by the first. -/
theorem classify_first_match_wins_witness :
    classify "API key over quota" = .failure .AuthError authMsg ∧
    classify "quota reached" = .failure .QuotaError quotaMsg ∧
    classify "request blocked" = .failure .ContentPolicyError safetyMsg ∧
    classify "network down" =
      .failure .UnknownError ("❌ An error occurred: " ++ "network down") := by
  refine ⟨(classify_first_match_wins "API key over quota").1 (by decide),
    (classify_first_match_wins "quota reached").2.1 (by decide) (by decide),
    (classify_first_match_wins "request blocked").2.2.1 (by decide) (by decide)
      (by decide),
    (classify_first_match_wins "network down").2.2.2 (by decide) (by decide)
      (by decide)⟩

/-- Claim C3 (counterexample): with non-empty text, a catalog style and an
empty credential the handler does fail on the configuration branch, but its
message is the component's API-key string, not `missing credential`. -/
theorem translate_c3_counterexample :
    (translate "hi" "Yoda" "" (fun _ => CollabResult.resolve "ok")).1 =
      .failure .ConfigurationError configMsg ∧
    configMsg ≠ "missing credential" := by
  refine ⟨by decide, by decide⟩

/-- Claim C3 (amended): for non-empty source text and a catalog style label,
an empty (or absent, modelled as empty) credential yields the configuration
failure with the component's message, and no network call is made. -/
theorem translate_missing_credential
    (sourceText styleLabel credential : String) (collab : String → CollabResult)
    (ht : sourceText ≠ "") (hs : styleLabel ∈ STYLES) (hc : credential = "") :
    translate sourceText styleLabel credential collab =
      (.failure .ConfigurationError configMsg, []) := by
  have hall : ∀ x ∈ STYLES, x ≠ "" := by decide
  have hs' : styleLabel ≠ "" := hall _ hs
  simp [translate, ht, hs', hc]

/-- Witness for the amended claim C3. -/
theorem translate_missing_credential_witness :
    translate "notes" "Yoda" "" (fun _ => CollabResult.resolve "ok") =
      (.failure .ConfigurationError configMsg, []) :=
  translate_missing_credential "notes" "Yoda" "" _ (by decide) (by decide) rfl

/-- Claim C6: whenever the network path is reached (non-empty text, non-empty
style, non-empty credential), exactly one prompt is sent and it is exactly the
template string with the style label and the verbatim, unescaped source text
substituted in; it does not depend on the credential or on the collaborator,
so the construction is deterministic in its two inputs. -/
theorem translate_prompt_exact
    (sourceText styleLabel credential : String) (collab : String → CollabResult)
    (ht : sourceText ≠ "") (hs : styleLabel ≠ "") (hc : credential ≠ "") :
    (translate sourceText styleLabel credential collab).2 =
      ["Rewrite the following meeting notes in " ++ styleLabel ++
        " style:\n\n" ++ sourceText] := by
  simp only [translate, ht, hs, hc, if_neg, or_self, or_false, false_or]
  cases collab (buildPrompt styleLabel sourceText) <;>
    simp [buildPrompt, ht, hs, hc]

/-- Witness for claim C6. -/
theorem translate_prompt_exact_witness :
    (translate "alpha beta" "Pirate" "secret"
        (fun _ => CollabResult.resolve "ok")).2 =
      ["Rewrite the following meeting notes in " ++ "Pirate" ++
        " style:\n\n" ++ "alpha beta"] :=
  translate_prompt_exact "alpha beta" "Pirate" "secret" _
    (by decide) (by decide) (by decide)

/-- Claim C7: running the handler a second time from the state the first run
produced, with the same credential and the same (deterministic) collaborator,
changes nothing: both the final state and the prompts sent are identical to
the first run's.  In particular the displayed result is identical both times;
the handler keeps no hidden state. -/
theorem handleTranslate_idempotent (s : AppState) (apiKey : String)
    (collab : String → CollabResult) :
    handleTranslate ((handleTranslate s apiKey collab).1) apiKey collab =
      handleTranslate s apiKey collab := by
  by_cases h1 : s.input = "" ∨ s.selectedStyle = ""
  · simp [handleTranslate, h1]
  · by_cases h2 : apiKey = ""
    · simp [handleTranslate, h1, h2]
    · cases hc : collab (buildPrompt s.selectedStyle s.input) <;>
        simp [handleTranslate, h1, h2, hc]

/-- Claim C8: when the source text or the style label is empty and the
credential is also empty, the input-validation branch wins: the result is the
validation failure, not the configuration failure. -/
theorem validation_precedes_credential
    (sourceText styleLabel credential : String) (collab : String → CollabResult)
    (h : sourceText = "" ∨ styleLabel = "") (_hc : credential = "") :
    (translate sourceText styleLabel credential collab).1 =
      .failure .ValidationError validationMsg ∧
    ∀ m : String, (translate sourceText styleLabel credential collab).1 ≠
      .failure .ConfigurationError m := by
  constructor
  · simp [translate, h]
  · intro m
    simp [translate, h]

/-- Witness for claim C8. -/
theorem validation_precedes_credential_witness :
    (translate "" "" "" (fun _ => CollabResult.resolve "ok")).1 =
      .failure .ValidationError validationMsg ∧
    ∀ m : String, (translate "" "" "" (fun _ => CollabResult.resolve "ok")).1 ≠
      .failure .ConfigurationError m :=
  validation_precedes_credential "" "" "" _ (Or.inl rfl) rfl

/-- Claim C10: if the handler is invoked while the loading flag is down (the
only way the UI can invoke it, since the button is disabled while loading),
then after the invocation completes the loading flag is down again on every
path: both early returns leave it untouched and the network path clears it in
the `finally` block, whether the collaborator resolves or rejects. -/
theorem handleTranslate_clears_loading (s : AppState) (apiKey : String)
    (collab : String → CollabResult) (h : s.loading = false) :
    ((handleTranslate s apiKey collab).1).loading = false := by
  by_cases h1 : s.input = "" ∨ s.selectedStyle = ""
  · simp [handleTranslate, h1, h]
  · by_cases h2 : apiKey = ""
    · simp [handleTranslate, h1, h2, h]
    · cases hc : collab (buildPrompt s.selectedStyle s.input) <;>
        simp [handleTranslate, h1, h2, hc]

/-- Witness for claim C10. -/
theorem handleTranslate_clears_loading_witness :
    ((handleTranslate (AppState.mk "notes" "Yoda" "" false) "secret"
        (fun _ => CollabResult.reject "network down")).1).loading = false :=
  handleTranslate_clears_loading (AppState.mk "notes" "Yoda" "" false) "secret"
    _ rfl

/-- Unfolding of `findClose` on a list with at least two characters. -/
lemma findClose_cons₂ (c d : Char) (cs : List Char) :
    findClose (c :: d :: cs) =
      if c = '*' ∧ d = '*' then some ([], cs)
      else if isLineTerm c = true then none
      else Option.map (fun p => (c :: p.1, p.2)) (findClose (d :: cs)) := rfl

/-- A successful `findClose` splits its input around the closing `**`. -/
lemma findClose_spec :
    ∀ (l cap r : List Char), findClose l = some (cap, r) →
      l = cap ++ '*' :: '*' :: r := by
  intro l
  induction l with
  | nil => intro cap r h; simp [findClose] at h
  | cons c t ih =>
    intro cap r h
    cases t with
    | nil => simp [findClose] at h
    | cons d cs =>
      rw [findClose_cons₂] at h
      by_cases hsd : c = '*' ∧ d = '*'
      · rw [if_pos hsd] at h
        simp only [Option.some.injEq, Prod.mk.injEq] at h
        obtain ⟨rfl, rfl⟩ := h
        rw [hsd.1, hsd.2]
        rfl
      · rw [if_neg hsd] at h
        by_cases hnl : isLineTerm c = true
        · rw [if_pos hnl] at h
          simp at h
        · rw [if_neg hnl] at h
          cases hfc : findClose (d :: cs) with
          | none => rw [hfc] at h; simp at h
          | some p =>
            rw [hfc] at h
            simp only [Option.map_some', Option.some.injEq, Prod.mk.injEq] at h
            obtain ⟨rfl, rfl⟩ := h
            have := ih p.1 p.2 hfc
            rw [List.cons_append, ← this]

/-- Unfolding of `rbf` when the opening `**` has a closing `**`. -/
lemma rbf_cons₂_hit (fuel : Nat) (c d : Char) (cs cap r : List Char)
    (hsd : c = '*' ∧ d = '*') (hfc : findClose cs = some (cap, r)) :
    rbf (fuel + 1) (c :: d :: cs) =
      strongOpen ++ cap ++ strongClose ++ rbf fuel r := by
  obtain ⟨rfl, rfl⟩ := hsd
  simp [rbf, hfc]

/-- Unfolding of `rbf` when the opening `**` has no closing `**`. -/
lemma rbf_cons₂_miss (fuel : Nat) (c d : Char) (cs : List Char)
    (hsd : c = '*' ∧ d = '*') (hfc : findClose cs = none) :
    rbf (fuel + 1) (c :: d :: cs) = c :: rbf fuel (d :: cs) := by
  obtain ⟨rfl, rfl⟩ := hsd
  simp [rbf, hfc]

/-- Unfolding of `rbf` when the position does not open a bold pair. -/
lemma rbf_cons₂_copy (fuel : Nat) (c d : Char) (cs : List Char)
    (h : ¬(c = '*' ∧ d = '*')) :
    rbf (fuel + 1) (c :: d :: cs) = c :: rbf fuel (d :: cs) := by
  simp [rbf, h]

/-- Spending one more unit of fuel than the input's length changes nothing. -/
lemma rbf_succ : ∀ (f : Nat) (l : List Char), l.length ≤ f →
    rbf f l = rbf (f + 1) l := by
  intro f
  induction f with
  | zero =>
    intro l hl
    have : l = [] := List.eq_nil_of_length_eq_zero (Nat.le_zero.mp hl)
    subst this
    rfl
  | succ f ih =>
    intro l hl
    match l with
    | [] => rfl
    | [c] => rfl
    | c :: d :: cs =>
      have hlen : cs.length + 1 ≤ f := by
        simp only [List.length_cons] at hl
        omega
      by_cases hsd : c = '*' ∧ d = '*'
      · cases hfc : findClose cs with
        | none =>
          rw [rbf_cons₂_miss f c d cs hsd hfc,
            rbf_cons₂_miss (f + 1) c d cs hsd hfc,
            ih (d :: cs) (by simpa using hlen)]
        | some p =>
          obtain ⟨cap, r⟩ := p
          have hsplit := findClose_spec cs cap r hfc
          have hr : r.length ≤ f := by
            have := congrArg List.length hsplit
            simp only [List.length_append, List.length_cons] at this
            omega
          rw [rbf_cons₂_hit f c d cs cap r hsd hfc,
            rbf_cons₂_hit (f + 1) c d cs cap r hsd hfc,
            ih r hr]
      · rw [rbf_cons₂_copy f c d cs hsd, rbf_cons₂_copy (f + 1) c d cs hsd,
          ih (d :: cs) (by simpa using hlen)]

/-- Any amount of surplus fuel changes nothing. -/
lemma rbf_add : ∀ (k f : Nat) (l : List Char), l.length ≤ f →
    rbf f l = rbf (f + k) l := by
  intro k
  induction k with
  | zero => intro f l _; rfl
  | succ k ih =>
    intro f l h
    rw [ih f l h]
    exact rbf_succ (f + k) l (le_trans h (Nat.le_add_right f k))

/-- `rbf` with enough fuel computes `replaceBold`. -/
lemma rbf_of_le (f : Nat) (l : List Char) (h : l.length ≤ f) :
    rbf f l = replaceBold l := by
  unfold replaceBold
  have h2 := rbf_add (f - l.length) l.length l (le_refl _)
  rw [Nat.add_sub_cancel' h] at h2
  exact h2.symm

/-- The bold replacement leaves asterisk-free text unchanged. -/
lemma rbf_no_star : ∀ (f : Nat) (l : List Char),
    (∀ c ∈ l, c ≠ '*') → rbf f l = l := by
  intro f
  induction f with
  | zero => intro l _; rfl
  | succ f ih =>
    intro l h
    match l with
    | [] => rfl
    | [c] => rfl
    | c :: d :: cs =>
      have hc : c ≠ '*' := h c (by simp)
      rw [rbf_cons₂_copy f c d cs (fun hh => hc hh.1),
        ih (d :: cs) (fun x hx => h x (List.mem_cons_of_mem c hx))]

/-- The bullet replacement leaves asterisk-free text unchanged. -/
lemma bulletAux_no_star : ∀ (l : List Char) (b : Bool),
    (∀ c ∈ l, c ≠ '*') → bulletAux b l = l := by
  intro l
  induction l with
  | nil => intro b _; rfl
  | cons c cs ih =>
    intro b h
    have hc : c ≠ '*' := h c (by simp)
    show bulletAux b (c :: cs) = c :: cs
    simp only [bulletAux]
    rw [if_neg (fun hh => hc hh.2.1),
      ih _ (fun x hx => h x (List.mem_cons_of_mem c hx))]

/-- `formatMarkdown` is the identity on strings without an asterisk. -/
lemma formatMarkdown_eq_self (s : String) (h : ('*' : Char) ∉ s.data) :
    formatMarkdown s = s := by
  have h' : ∀ c ∈ s.data, c ≠ '*' := fun c hc he => h (he ▸ hc)
  unfold formatMarkdown replaceBold
  rw [rbf_no_star _ _ h', bulletAux_no_star _ _ h']

/-- A non-asterisk head character is copied by the bold replacement. -/
lemma replaceBold_cons (c : Char) (l : List Char) (hc : c ≠ '*') :
    replaceBold (c :: l) = c :: replaceBold l := by
  cases l with
  | nil => rfl
  | cons d cs =>
    show rbf (cs.length + 1 + 1) (c :: d :: cs) = c :: replaceBold (d :: cs)
    rw [rbf_cons₂_copy _ c d cs (fun hh => hc hh.1)]
    rfl

/-- An asterisk-free context in front of the input is copied verbatim by the
bold replacement. -/
lemma replaceBold_clean_append (p l : List Char) (hp : ∀ c ∈ p, c ≠ '*') :
    replaceBold (p ++ l) = p ++ replaceBold l := by
  induction p with
  | nil => simp
  | cons c p' ih =>
    have hc : c ≠ '*' := hp c (by simp)
    rw [List.cons_append, replaceBold_cons c _ hc,
      ih (fun x hx => hp x (List.mem_cons_of_mem c hx)), List.cons_append]

/-- Right after an opening `**`, the lazy search finds the first following
`**`: with an asterisk-free, line-terminator-free capture in front of it, the
closing pair is found exactly at the junction. -/
lemma findClose_clean : ∀ (m s : List Char),
    (∀ c ∈ m, c ≠ '*') → (∀ c ∈ m, isLineTerm c = false) →
    findClose (m ++ '*' :: '*' :: s) = some (m, s) := by
  intro m
  induction m with
  | nil =>
    intro s _ _
    show findClose ('*' :: '*' :: s) = some ([], s)
    rw [findClose_cons₂, if_pos ⟨rfl, rfl⟩]
  | cons c m' ih =>
    intro s h1 h2
    have hc1 : c ≠ '*' := h1 c (by simp)
    have hc2 : isLineTerm c = false := h2 c (by simp)
    have h1' : ∀ x ∈ m', x ≠ '*' := fun x hx => h1 x (List.mem_cons_of_mem c hx)
    have h2' : ∀ x ∈ m', isLineTerm x = false :=
      fun x hx => h2 x (List.mem_cons_of_mem c hx)
    cases m' with
    | nil =>
      show findClose (c :: '*' :: '*' :: s) = some ([c], s)
      rw [findClose_cons₂, if_neg (fun hh => hc1 hh.1), if_neg (by simp [hc2])]
      rw [show findClose ('*' :: '*' :: s) = some ([], s) from
        by rw [findClose_cons₂, if_pos ⟨rfl, rfl⟩]]
      rfl
    | cons e m'' =>
      show findClose (c :: e :: (m'' ++ '*' :: '*' :: s)) =
        some (c :: e :: m'', s)
      rw [findClose_cons₂, if_neg (fun hh => hc1 hh.1), if_neg (by simp [hc2])]
      rw [show findClose (e :: (m'' ++ '*' :: '*' :: s)) =
          findClose ((e :: m'') ++ '*' :: '*' :: s) from rfl,
        ih s h1' h2']
      rfl

/-- A bold pair `**m**` at the head of the input, with `m` asterisk-free and
within one line (no line terminator), is rewritten to the emphasized markup,
and the scan resumes after it. -/
lemma replaceBold_bold (m s : List Char)
    (h1 : ∀ c ∈ m, c ≠ '*') (h2 : ∀ c ∈ m, isLineTerm c = false) :
    replaceBold ('*' :: '*' :: (m ++ '*' :: '*' :: s)) =
      strongOpen ++ m ++ strongClose ++ replaceBold s := by
  show rbf ((m ++ '*' :: '*' :: s).length + 1 + 1)
      ('*' :: '*' :: (m ++ '*' :: '*' :: s)) = _
  rw [rbf_cons₂_hit _ '*' '*' _ m s ⟨rfl, rfl⟩ (findClose_clean m s h1 h2),
    rbf_of_le _ s (by simp only [List.length_append, List.length_cons]; omega)]

/-- At a line start, a leading `*` whose tail matches `bulletHead` is replaced
by `•`. -/
lemma bulletAux_hit (cs : List Char) (h : bulletHead cs = true) :
    bulletAux true ('*' :: cs) = '•' :: bulletAux false cs := by
  simp [bulletAux, h]

/-- Away from a line start, every character is copied, and the line-start
flag comes back on exactly after a line terminator. -/
lemma bulletAux_skip (c : Char) (cs : List Char) :
    bulletAux false (c :: cs) = c :: bulletAux (isLineTerm c) cs := by
  simp [bulletAux]

/-- Away from a line start, the bullet replacement copies the rest of the line
and turns the scan back on at the following newline. -/
lemma bulletAux_copy_line : ∀ (t rest : List Char),
    (∀ c ∈ t, isLineTerm c = false) →
    bulletAux false (t ++ '\n' :: rest) = t ++ '\n' :: bulletAux true rest := by
  intro t
  induction t with
  | nil =>
    intro rest _
    show bulletAux false ('\n' :: rest) = '\n' :: bulletAux true rest
    rw [bulletAux_skip, show isLineTerm '\n' = true from by decide]
  | cons c t' ih =>
    intro rest h
    have hc : isLineTerm c = false := h c (by simp)
    show bulletAux false (c :: (t' ++ '\n' :: rest)) = _
    rw [bulletAux_skip, hc,
      ih rest (fun x hx => h x (List.mem_cons_of_mem c hx))]
    rfl

/-- Away from a line start, a line-terminator-free tail is copied verbatim. -/
lemma bulletAux_copy_end : ∀ (t : List Char), (∀ c ∈ t, isLineTerm c = false) →
    bulletAux false t = t := by
  intro t
  induction t with
  | nil => intro _; rfl
  | cons c t' ih =>
    intro h
    have hc : isLineTerm c = false := h c (by simp)
    rw [bulletAux_skip, hc,
      ih (fun x hx => h x (List.mem_cons_of_mem c hx))]

/-- A line `* t` with non-empty, line-terminator-free content `t`, followed by
a newline, is turned into `• t` and the scan resumes at the next line
start. -/
lemma bulletAux_bullet_line (t rest : List Char) (ht : t ≠ [])
    (hn : ∀ c ∈ t, isLineTerm c = false) :
    bulletAux true ('*' :: ' ' :: (t ++ '\n' :: rest)) =
      '•' :: ' ' :: (t ++ '\n' :: bulletAux true rest) := by
  obtain ⟨a, t', rfl⟩ : ∃ a t', t = a :: t' := by
    cases t with
    | nil => exact absurd rfl ht
    | cons a t' => exact ⟨a, t', rfl⟩
  have ha : isLineTerm a = false := hn a (by simp)
  show bulletAux true ('*' :: ' ' :: a :: (t' ++ '\n' :: rest)) = _
  rw [bulletAux_hit (' ' :: a :: (t' ++ '\n' :: rest)) (by simp [bulletHead, ha]),
    bulletAux_skip, show isLineTerm ' ' = false from by decide,
    show (a :: (t' ++ '\n' :: rest)) = ((a :: t') ++ '\n' :: rest) from rfl,
    bulletAux_copy_line (a :: t') rest hn]

/-- A line `* t` with non-empty, line-terminator-free content `t` at the end
of the input is turned into `• t`. -/
lemma bulletAux_bullet_line_end (t : List Char) (ht : t ≠ [])
    (hn : ∀ c ∈ t, isLineTerm c = false) :
    bulletAux true ('*' :: ' ' :: t) = '•' :: ' ' :: t := by
  obtain ⟨a, t', rfl⟩ : ∃ a t', t = a :: t' := by
    cases t with
    | nil => exact absurd rfl ht
    | cons a t' => exact ⟨a, t', rfl⟩
  have ha : isLineTerm a = false := hn a (by simp)
  rw [bulletAux_hit (' ' :: a :: t') (by simp [bulletHead, ha]),
    bulletAux_skip, show isLineTerm ' ' = false from by decide,
    bulletAux_copy_end (a :: t') hn]

/-- Claim C4 (counterexample): a line that is exactly `* ` begins with `* `
but is not converted to bullet markup (the pattern requires at least one
character after the marker), and a bold pair whose content spans a newline is
not converted either. -/
theorem formatMarkdown_c4_counterexample :
    formatMarkdown "* " = "* " ∧ ("* " : String) ≠ "• " ∧
    formatMarkdown "**a\nb**" = "**a\nb**" := by
  refine ⟨by decide, by decide, by decide⟩

/-- Claim C4 (amended): the post-processing converts every bold marker pair
`**m**` whose content is asterisk-free and stays within one line (contains no
ECMAScript line terminator; in any asterisk-free context `p`, with the scan
resuming on the remainder `s`), and every line beginning with `* ` that has at
least one character after the marker, both mid-text and at the end of the
text; in particular the text `Hello **world**\n* item one` yields
`Hello <strong>world</strong>\n• item one`. -/
theorem formatMarkdown_conversions
    (p m s t rest : List Char)
    (hp : ∀ c ∈ p, c ≠ '*') (hm : ∀ c ∈ m, c ≠ '*')
    (hmn : ∀ c ∈ m, isLineTerm c = false)
    (ht : t ≠ []) (htn : ∀ c ∈ t, isLineTerm c = false) :
    replaceBold (p ++ '*' :: '*' :: (m ++ '*' :: '*' :: s)) =
      p ++ strongOpen ++ m ++ strongClose ++ replaceBold s ∧
    bulletAux true ('*' :: ' ' :: (t ++ '\n' :: rest)) =
      '•' :: ' ' :: (t ++ '\n' :: bulletAux true rest) ∧
    bulletAux true ('*' :: ' ' :: t) = '•' :: ' ' :: t ∧
    formatMarkdown "Hello **world**\n* item one" =
      "Hello <strong>world</strong>\n• item one" := by
  refine ⟨?_, bulletAux_bullet_line t rest ht htn,
    bulletAux_bullet_line_end t ht htn, by decide⟩
  rw [replaceBold_clean_append p _ hp, replaceBold_bold m s hm hmn]
  simp [List.append_assoc]

/-- Witness for the amended claim C4. -/
theorem formatMarkdown_conversions_witness :
    replaceBold ("ab".data ++ '*' :: '*' :: ("cd".data ++ '*' :: '*' :: "ef".data)) =
      "ab".data ++ strongOpen ++ "cd".data ++ strongClose ++ replaceBold "ef".data ∧
    bulletAux true ('*' :: ' ' :: ("item".data ++ '\n' :: "next".data)) =
      '•' :: ' ' :: ("item".data ++ '\n' :: bulletAux true "next".data) ∧
    bulletAux true ('*' :: ' ' :: "item".data) = '•' :: ' ' :: "item".data ∧
    formatMarkdown "Hello **world**\n* item one" =
      "Hello <strong>world</strong>\n• item one" :=
  formatMarkdown_conversions "ab".data "cd".data "ef".data "item".data
    "next".data (by decide) (by decide) (by decide) (by decide) (by decide)

/-- Claim C9: the post-processing is the identity on any string containing no
asterisk. -/
theorem formatMarkdown_identity_no_asterisk (s : String)
    (h : ('*' : Char) ∉ s.data) : formatMarkdown s = s :=
  formatMarkdown_eq_self s h

/-- Witness for claim C9. -/
theorem formatMarkdown_identity_no_asterisk_witness :
    formatMarkdown "meeting notes\n- plain point" = "meeting notes\n- plain point" :=
  formatMarkdown_identity_no_asterisk "meeting notes\n- plain point" (by decide)

/-- Claim C5 (counterexample): the rendering applies the markdown substitution
to the displayed output unconditionally, so a failure whose message embeds
bold markers (possible on the catch-all branch, whose message embeds the
collaborator's error text) is not displayed verbatim. -/
theorem render_c5_counterexample :
    (translate "notes" "Yoda" "secret"
        (fun _ => CollabResult.reject "**boom**")).1 =
      .failure .UnknownError "❌ An error occurred: **boom**" ∧
    renderedOutput "❌ An error occurred: **boom**" =
      "❌ An error occurred: <strong>boom</strong>" ∧
    ("❌ An error occurred: <strong>boom</strong>" : String) ≠
      "❌ An error occurred: **boom**" := by
  refine ⟨by decide, by decide, by decide⟩

/-- Claim C5 (amended): the rendering applies the markdown substitution to all
displayed output, error messages included; every fixed error message of the
component contains no asterisk and is therefore displayed unchanged, and the
same holds for any classified failure whose underlying collaborator message is
asterisk-free — but not in general for the catch-all message. -/
theorem render_applies_to_all_output :
    (∀ out : String, renderedOutput out = formatMarkdown out) ∧
    renderedOutput validationMsg = validationMsg ∧
    renderedOutput configMsg = configMsg ∧
    ∀ m : String, ('*' : Char) ∉ m.data →
      renderedOutput (resultText (classify m)) = resultText (classify m) := by
  refine ⟨fun _ => rfl, by decide, by decide, ?_⟩
  intro m hm
  unfold classify
  split
  · decide
  · split
    · decide
    · split
      · decide
      · show renderedOutput (unknownMsg m) = unknownMsg m
        apply formatMarkdown_eq_self
        intro hmem
        unfold unknownMsg at hmem
        rw [String.data_append] at hmem
        rcases List.mem_append.mp hmem with h | h
        · revert h
          decide
        · exact hm h

/-- Witness for the amended claim C5. -/
theorem render_applies_to_all_output_witness :
    renderedOutput (resultText (classify "boom")) = resultText (classify "boom") :=
  render_applies_to_all_output.2.2.2 "boom" (by decide)

end MeetingTranslator
